import Mathlib

/- Shallow embedding of the validation schema (`createUserFormSchema`, a zod
   object schema) and the field-array collection logic from `src/App.tsx` of
   the react-advanced-forms repository.  JS strings are modelled as `String`
   processed through their character lists, JS numbers appearing here (file
   sizes, knowledge values) as `Nat`/`Int`, and a thrown exception as an
   `Option`/dedicated result constructor. -/

/-- Error kinds, one per issue shape the schema can raise.  `invalidType` is
the invalid-type issue zod raises when a value has the wrong runtime type
(for example a missing `techs` key, received `undefined`). -/
inductive ErrKind where
  | required
  | tooLarge
  | invalidFormat
  | policyViolation
  | tooShort
  | outOfRange
  | tooFew
  | mismatch
  | invalidType
deriving DecidableEq

/-- A segment of a zod issue path: an object key or an array index. -/
inductive PathSeg where
  | fld (s : String)
  | idx (n : Nat)
deriving DecidableEq

/-- A reported issue: its path and its kind. -/
structure FieldError where
  path : List PathSeg
  kind : ErrKind
deriving DecidableEq

/-- A browser `File`; the schema only reads its `size` attribute (bytes). -/
structure JsFile where
  size : Nat
deriving DecidableEq

/-- The raw `knowledge` value of a tech entry: a number when untouched from
`append`, a string when it comes from the number input. -/
inductive RawKnowledge where
  | num (n : Int)
  | str (s : String)
deriving DecidableEq

/-- A raw tech entry as submitted. -/
structure RawTech where
  title : String
  knowledge : RawKnowledge
deriving DecidableEq

/-- The raw candidate record handed to `validate`.  `avatar` is the file list
of the file input; `techs` is optional so that a missing key (undefined) can
be represented. -/
structure RawRecord where
  avatar : List JsFile
  name : String
  email : String
  password : String
  confirmPassword : String
  techs : Option (List RawTech)
deriving DecidableEq

/-- A validated tech entry. -/
structure Tech where
  title : String
  knowledge : Int
deriving DecidableEq

/-- The normalized output record of a successful parse. -/
structure NormalizedRecord where
  avatar : JsFile
  name : String
  email : String
  password : String
  confirmPassword : String
  techs : List Tech
deriving DecidableEq

def spaceChar : Char := Char.ofNat 32

def apoChar : Char := Char.ofNat 39

/-- JS `String.prototype.split(sep)` for a one-character separator, over the
character list.  `"".split(" ")` is `[""]`, and consecutive separators give
empty groups, as in JS. -/
def splitOnChar (sep : Char) : List Char → List (List Char)
  | [] => [[]]
  | c :: rest =>
      if c == sep then [] :: splitOnChar sep rest
      else
        match splitOnChar sep rest with
        | [] => [[c]]
        | g :: gs => (c :: g) :: gs

/-- JS `String.prototype.trim()` over the character list. -/
def trimChars (cs : List Char) : List Char :=
  ((cs.dropWhile Char.isWhitespace).reverse.dropWhile Char.isWhitespace).reverse

/-- `part[0].toLocaleUpperCase().concat(part.substring(1))` for a nonempty
token; the empty-token case is unreachable in guarded calls. -/
def capWord : List Char → List Char
  | [] => []
  | c :: cs => c.toUpper :: cs

/-- JS `Array.prototype.join(" ")` over character-list tokens. -/
def joinSpace : List (List Char) → List Char
  | [] => []
  | [g] => g
  | g :: gs => g ++ spaceChar :: joinSpace gs

/-- The `capitalize` function of App.tsx: trim, split on single spaces, map
each token to first-character-uppercased, re-join.  `none` models the
TypeError thrown when a split token is empty (`part[0]` is `undefined`, and
`undefined.toLocaleUpperCase()` throws). -/
def capitalize (w : String) : Option String :=
  let parts := splitOnChar spaceChar (trimChars w.data)
  if parts.all (fun p => ! p.isEmpty) then
    some ⟨joinSpace (parts.map capWord)⟩
  else
    none


/-- Character class `[A-Z0-9_'+\-\.]` (with the `i` flag) of the zod email
regular expression: the body of the local part. -/
def isLocalBodyChar (c : Char) : Bool :=
  c.isAlpha || c.isDigit || c == '_' || c == apoChar || c == '+' || c == '-' || c == '.'

/-- Character class `[A-Z0-9_+-]` (with the `i` flag): the final character of
the local part. -/
def isLocalEndChar (c : Char) : Bool :=
  c.isAlpha || c.isDigit || c == '_' || c == '+' || c == '-'

/-- Character class `[A-Z0-9]` (with the `i` flag): the first character of a
domain label. -/
def isDomStartChar (c : Char) : Bool :=
  c.isAlpha || c.isDigit

/-- Character class `[A-Z0-9\-]` (with the `i` flag): the body of a domain
label. -/
def isDomBodyChar (c : Char) : Bool :=
  c.isAlpha || c.isDigit || c == '-'

/-- The negative lookahead `(?!.*\.\.)`: two consecutive dots anywhere. -/
def hasDoubleDot : List Char → Bool
  | [] => false
  | [_] => false
  | c :: c2 :: rest => (c == '.' && c2 == '.') || hasDoubleDot (c2 :: rest)

/-- `([A-Z0-9_'+\-\.]*)[A-Z0-9_+-]` on the local part. -/
def localOk (loc : List Char) : Bool :=
  match loc.reverse with
  | [] => false
  | lastc :: revInit => isLocalEndChar lastc && revInit.all isLocalBodyChar

/-- `[A-Z0-9][A-Z0-9\-]*`: one non-final domain label. -/
def labelOk (lab : List Char) : Bool :=
  match lab with
  | [] => false
  | c :: rest => isDomStartChar c && rest.all isDomBodyChar

/-- `[A-Z]{2,}$`: the final domain label. -/
def tldOk (lab : List Char) : Bool :=
  lab.all Char.isAlpha && decide (2 ≤ lab.length)

/-- `([A-Z0-9][A-Z0-9\-]*\.)+[A-Z]{2,}$` on the domain part. -/
def domOk (dom : List Char) : Bool :=
  let labels := splitOnChar '.' dom
  match labels.reverse with
  | [] => false
  | tld :: revInit => decide (2 ≤ labels.length) && tldOk tld && revInit.all labelOk

/-- The zod v3 email regular expression
`/^(?!\.)(?!.*\.\.)([A-Z0-9_'+\-\.]*)[A-Z0-9_+-]@([A-Z0-9][A-Z0-9\-]*\.)+[A-Z]{2,}$/i`
written out as a character-list check.  Neither character class contains `@`,
so the split at the first `@` is exact. -/
def zodEmailCheck (s : String) : Bool :=
  match s.data with
  | [] => false
  | c0 :: rest0 =>
      ! (c0 == '.') && ! hasDoubleDot (c0 :: rest0) &&
      (let loc := (c0 :: rest0).takeWhile (fun c => ! (c == '@'))
       match (c0 :: rest0).dropWhile (fun c => ! (c == '@')) with
       | [] => false
       | _ :: dom => localOk loc && domOk dom)

/-- JS `String.prototype.toLowerCase()` (ASCII fragment, via `Char.toLower`). -/
def lowerStr (s : String) : String :=
  ⟨s.data.map Char.toLower⟩

def gmailSuffix : List Char := "@gmail.com".data

/-- `email.endsWith("@gmail.com")`. -/
def endsWithGmail (s : String) : Bool :=
  gmailSuffix.isSuffixOf s.data


def avatarPath : List PathSeg := [.fld "avatar"]

def namePath : List PathSeg := [.fld "name"]

def emailPath : List PathSeg := [.fld "email"]

def passwordPath : List PathSeg := [.fld "password"]

def confirmPath : List PathSeg := [.fld "confirmPassword"]

def techsPath : List PathSeg := [.fld "techs"]

def titlePath (i : Nat) : List PathSeg := [.fld "techs", .idx i, .fld "title"]

def knowledgePath (i : Nat) : List PathSeg := [.fld "techs", .idx i, .fld "knowledge"]

/-- `fileSize = fileSizeInMb * 1024 * 1024` with `fileSizeInMb = 10`. -/
def maxFileSize : Nat := 10 * 1024 * 1024

/-- The avatar field: `.transform((list) => list.item(0)).superRefine(...)`.
`list.item(0)` is the first file or `null`; the superRefine raises the custom
required issue when the file is `null` (and returns), else the too-big issue
when `file.size > fileSize` strictly. -/
def parseAvatar (fl : List JsFile) : List FieldError × Option JsFile :=
  match fl.head? with
  | none => ([⟨avatarPath, .required⟩], none)
  | some f => ((if maxFileSize < f.size then [⟨avatarPath, .tooLarge⟩] else []), some f)

/-- The name field: `.nonempty("Name is required")` (length ≥ 1 on the raw
string, no trimming) then `.transform((name) => capitalize(name))`.  In zod a
transform only runs when the inner parse is fully valid, so a failed nonempty
check skips `capitalize`; `none` models the exception `capitalize` can throw. -/
def parseName (s : String) : Option (List FieldError × String) :=
  if s.length < 1 then some ([⟨namePath, .required⟩], s)
  else
    match capitalize s with
    | none => none
    | some c => some ([], c)

/-- The email field: `.nonempty`, `.email`, `.toLowerCase()`, then
`.refine(endsWith "@gmail.com")`.  zod string checks all run and accumulate
(a failing check only marks the result dirty), the lower-casing happens after
the format check, and the refinement runs on the (possibly dirty) lower-cased
value. -/
def parseEmail (s : String) : List FieldError × String :=
  ((if s.length < 1 then [⟨emailPath, .required⟩] else []) ++
   (if zodEmailCheck s then [] else [⟨emailPath, .invalidFormat⟩]) ++
   (if endsWithGmail (lowerStr s) then [] else [⟨emailPath, .policyViolation⟩]),
   lowerStr s)

/-- `.min(8, ...)` for password and confirmPassword. -/
def parsePassword (p : List PathSeg) (s : String) : List FieldError :=
  if s.length < 8 then [⟨p, .tooShort⟩] else []

/-- All-digit character list to its numeric value. -/
def digitsToNat : List Char → Option Nat
  | [] => none
  | cs =>
      if cs.all Char.isDigit then
        some (cs.foldl (fun acc c => 10 * acc + (c.toNat - 48)) 0)
      else none

/-- Integer fragment of the JS `Number` coercion used by `z.coerce.number()`:
surrounding whitespace is trimmed, the empty string gives 0, an optional sign
followed by digits gives that integer.  Other JS numeric syntax (fractions,
exponents, hex) is outside the fragment and is modelled as NaN (`none`),
which zod turns into an invalid-type issue. -/
def jsNumberInt (s : String) : Option Int :=
  match trimChars s.data with
  | [] => some 0
  | '-' :: ds => (digitsToNat ds).map (fun n => -(n : Int))
  | '+' :: ds => (digitsToNat ds).map (fun n => (n : Int))
  | ds => (digitsToNat ds).map (fun n => (n : Int))

/-- `z.coerce.number()` on a raw knowledge value. -/
def coerceKnowledge : RawKnowledge → Option Int
  | .num n => some n
  | .str s => jsNumberInt s

/-- `knowledge: z.coerce.number().min(1).max(100)` at entry index `i`:
an uncoercible value is an invalid-type issue; otherwise `.min(1)` and
`.max(100)` both run and accumulate. -/
def knowledgeErrs (i : Nat) (rk : RawKnowledge) : List FieldError × Option Int :=
  match coerceKnowledge rk with
  | none => ([⟨knowledgePath i, .invalidType⟩], none)
  | some n =>
      ((if n < 1 then [⟨knowledgePath i, .outOfRange⟩] else []) ++
       (if 100 < n then [⟨knowledgePath i, .outOfRange⟩] else []), some n)

/-- One element of the techs array: `title` nonempty, then knowledge.  The
entry value is only available when the knowledge coercion succeeded (an
invalid type aborts the element). -/
def validateTechEntry (i : Nat) (t : RawTech) : List FieldError × Option Tech :=
  ((if t.title.length < 1 then [⟨titlePath i, .required⟩] else []) ++ (knowledgeErrs i t.knowledge).1,
   (knowledgeErrs i t.knowledge).2.map (fun n => ⟨t.title, n⟩))

/-- The techs field: a missing key (`undefined`) is an invalid-type issue and
aborts the object parse; otherwise `.min(2)` runs before the per-element
parses and all issues accumulate.  The middle component is the aborted flag
(any element of invalid type aborts the array, and with it the object). -/
def parseTechs : Option (List RawTech) → List FieldError × Bool × List Tech
  | none => ([⟨techsPath, .invalidType⟩], true, [])
  | some ts =>
      ((if ts.length < 2 then [⟨techsPath, .tooFew⟩] else []) ++
        ((ts.enum.map (fun p => validateTechEntry p.1 p.2)).map Prod.fst).flatten,
       (ts.enum.map (fun p => validateTechEntry p.1 p.2)).any (fun r => r.2.isNone),
       (ts.enum.map (fun p => validateTechEntry p.1 p.2)).filterMap Prod.snd)

/-- The ordered field-level issues of one parse, in schema declaration order
(avatar, name, email, password, confirmPassword, techs).  `nm` is the result
of the name field's parse. -/
def fieldIssues (r : RawRecord) (nm : List FieldError × String) : List FieldError :=
  (parseAvatar r.avatar).1 ++ nm.1 ++ (parseEmail r.email).1 ++
  parsePassword passwordPath r.password ++ parsePassword confirmPath r.confirmPassword ++
  (parseTechs r.techs).1

/-- The object-level `.refine(password === confirmPassword, path confirmPassword)`. -/
def refineIssues (r : RawRecord) : List FieldError :=
  if r.password = r.confirmPassword then [] else [⟨confirmPath, .mismatch⟩]

/-- The outcome of `createUserFormSchema.safeParse`: an uncaught exception, a
normalized record, or the ordered issue list. -/
inductive VResult where
  | exn
  | ok (r : NormalizedRecord)
  | err (es : List FieldError)
deriving DecidableEq

/-- `createUserFormSchema` applied to a raw record.  A throwing `capitalize`
escapes as an exception.  The object-level refinement is skipped only when
the object parse aborted (here: the techs key missing or an element's
knowledge of invalid type); with the parse merely dirty it still runs, and
its issue is appended after all field-level issues. -/
def validate (r : RawRecord) : VResult :=
  match parseName r.name with
  | none => .exn
  | some nm =>
      if (parseTechs r.techs).2.1 then .err (fieldIssues r nm)
      else
        if (fieldIssues r nm ++ refineIssues r).isEmpty then
          match (parseAvatar r.avatar).2 with
          | some f =>
              .ok ⟨f, nm.2, (parseEmail r.email).2, r.password, r.confirmPassword,
                (parseTechs r.techs).2.2⟩
          | none => .err (fieldIssues r nm ++ refineIssues r)
        else .err (fieldIssues r nm ++ refineIssues r)

/-- The issue list of a result (empty for success or an exception). -/
def errsOf : VResult → List FieldError
  | .err es => es
  | _ => []

/-- The dynamic collection entry managed by `useFieldArray`: the stable `id`
react-hook-form generates, plus the tech values. -/
structure CollItem where
  id : Nat
  title : String
  knowledge : Int
deriving DecidableEq

/-- The collection state: its ordered entries and the next fresh identifier. -/
structure Coll where
  items : List CollItem
  nextId : Nat
deriving DecidableEq

/-- `append(entry)`: insert at the end with a freshly generated stable id. -/
def appendEntry (c : Coll) (title : String) (knowledge : Int) : Coll :=
  ⟨c.items ++ [⟨c.nextId, title, knowledge⟩], c.nextId + 1⟩

/-- `addNewTech`: `append({ title: "", knowledge: 0 })`. -/
def addNewTech (c : Coll) : Coll :=
  appendEntry c "" 0

/-- `remove(i)`: delete the entry at position `i`, a no-op out of bounds. -/
def removeAt (c : Coll) (i : Nat) : Coll :=
  if i < c.items.length then ⟨c.items.eraseIdx i, c.nextId⟩ else c

def file1k : JsFile := ⟨1024⟩

def validTechs : List RawTech := [⟨"Go", .num 50⟩, ⟨"Rust", .num 80⟩]

/-- A record whose fields other than the name are all valid. -/
def baseRec (nm : String) : RawRecord :=
  ⟨[file1k], nm, "ana@gmail.com", "12345678", "12345678", some validTechs⟩

/-- A fully valid record. -/
def validRec : RawRecord := baseRec "ana silva"

/-- The normalized record `validRec` parses to. -/
def validNorm : NormalizedRecord :=
  ⟨file1k, "Ana Silva", "ana@gmail.com", "12345678", "12345678", [⟨"Go", 50⟩, ⟨"Rust", 80⟩]⟩

/-- The spec's concrete mismatch scenario. -/
def specScenarioRec : RawRecord :=
  ⟨[file1k], "  ana silva ", "ANA@gmail.com", "12345678", "87654321",
    some [⟨"Go", .str "50"⟩, ⟨"Rust", .str "80"⟩]⟩

/-- Both passwords too short and unequal, every other field valid. -/
def shortPwRec : RawRecord :=
  ⟨[file1k], "ana", "ana@gmail.com", "1234567", "7654321", some validTechs⟩

/-- The techs key missing entirely, every other field valid. -/
def noTechsRec : RawRecord :=
  ⟨[file1k], "ana", "ana@gmail.com", "12345678", "12345678", none⟩


lemma string_length_lt_one_iff (s : String) : s.length < 1 ↔ s = "" := by
  cases s with
  | mk data =>
    cases data with
    | nil => simp [String.length]
    | cons c cs =>
      simp only [String.length, List.length_cons]
      constructor
      · intro h; omega
      · intro h
        have hd := congrArg String.data h
        simp at hd

lemma parseAvatar_val (fl : List JsFile) : (parseAvatar fl).2 = fl.head? := by
  cases h : fl.head? <;> simp [parseAvatar, h]

lemma mem_parseAvatar_kind {fl : List JsFile} {e : FieldError}
    (h : e ∈ (parseAvatar fl).1) : e.kind = .required ∨ e.kind = .tooLarge := by
  cases hh : fl.head? with
  | none => simp [parseAvatar, hh] at h; simp [h]
  | some f =>
    simp only [parseAvatar, hh] at h
    by_cases hs : maxFileSize < f.size <;> simp [hs] at h <;> simp [h]

lemma mem_parseName_kind {s : String} {nm : List FieldError × String} {e : FieldError}
    (hn : parseName s = some nm) (h : e ∈ nm.1) : e.kind = .required := by
  unfold parseName at hn
  by_cases hl : s.length < 1
  · simp only [hl, if_pos] at hn
    cases hn
    simp at h
    simp [h]
  · simp only [hl, if_neg, not_false_iff] at hn
    cases hc : capitalize s with
    | none => rw [hc] at hn; cases hn
    | some c =>
      rw [hc] at hn
      cases hn
      simp at h

lemma mem_parseEmail_kind {s : String} {e : FieldError}
    (h : e ∈ (parseEmail s).1) :
    e.kind = .required ∨ e.kind = .invalidFormat ∨ e.kind = .policyViolation := by
  simp only [parseEmail, List.mem_append] at h
  rcases h with (h | h) | h
  · by_cases hx : s.length < 1 <;> simp [hx] at h
    simp [h]
  · by_cases hx : zodEmailCheck s <;> simp [hx] at h
    simp [h]
  · by_cases hx : endsWithGmail (lowerStr s) <;> simp [hx] at h
    simp [h]

lemma mem_parsePassword_kind {p : List PathSeg} {s : String} {e : FieldError}
    (h : e ∈ parsePassword p s) : e.kind = .tooShort := by
  unfold parsePassword at h
  by_cases hl : s.length < 8 <;> simp [hl] at h <;> simp [h]

lemma mem_knowledgeErrs_kind {i : Nat} {rk : RawKnowledge} {e : FieldError}
    (h : e ∈ (knowledgeErrs i rk).1) :
    e.kind = .invalidType ∨ e.kind = .outOfRange := by
  unfold knowledgeErrs at h
  cases hc : coerceKnowledge rk with
  | none => rw [hc] at h; simp at h; simp [h]
  | some n =>
    rw [hc] at h
    simp only [List.mem_append] at h
    rcases h with h | h
    · by_cases h1 : n < 1 <;> simp [h1] at h <;> simp [h]
    · by_cases h2 : 100 < n <;> simp [h2] at h <;> simp [h]

lemma mem_validateTechEntry_kind {i : Nat} {t : RawTech} {e : FieldError}
    (h : e ∈ (validateTechEntry i t).1) :
    e.kind = .required ∨ e.kind = .invalidType ∨ e.kind = .outOfRange := by
  unfold validateTechEntry at h
  simp only [List.mem_append] at h
  rcases h with h | h
  · by_cases hl : t.title.length < 1 <;> simp [hl] at h <;> simp [h]
  · rcases mem_knowledgeErrs_kind h with h | h <;> simp [h]

lemma mem_parseTechs_kind {o : Option (List RawTech)} {e : FieldError}
    (h : e ∈ (parseTechs o).1) : e.kind ≠ .mismatch := by
  cases o with
  | none => simp [parseTechs] at h; simp [h]
  | some ts =>
    simp only [parseTechs, List.mem_append] at h
    rcases h with h | h
    · by_cases hl : ts.length < 2 <;> simp [hl] at h <;> simp [h]
    · simp only [List.map_map, List.mem_flatten, List.mem_map, Function.comp] at h
      obtain ⟨l, ⟨p, hp, hgl⟩, hmem⟩ := h
      subst hgl
      rcases mem_validateTechEntry_kind hmem with h | h | h <;> simp [h]

lemma mem_fieldIssues_kind {r : RawRecord} {nm : List FieldError × String} {e : FieldError}
    (hn : parseName r.name = some nm) (h : e ∈ fieldIssues r nm) :
    e.kind ≠ .mismatch := by
  simp only [fieldIssues, List.mem_append] at h
  rcases h with ((((h | h) | h) | h) | h) | h
  · rcases mem_parseAvatar_kind h with h | h <;> simp [h]
  · simp [mem_parseName_kind hn h]
  · rcases mem_parseEmail_kind h with h | h | h <;> simp [h]
  · simp [mem_parsePassword_kind h]
  · simp [mem_parsePassword_kind h]
  · exact mem_parseTechs_kind h

/-- C1: the claim says a whitespace-only name fails with Required before the
transform runs.  On the code, the name " " passes the nonempty check (its
length is 1, so no Required issue is raised) and the capitalize transform
does run on it and throws, so validation ends in an exception instead. -/
theorem c1_whitespace_name_bug :
    validate (baseRec " ") = .exn ∧
    capitalize " " = none ∧
    ¬ (" " : String).length < 1 := by decide

/-- C2: the claim says validate never throws on a well-typed record.  On the
code, a name with consecutive spaces ("a  b") is well typed, yet capitalize
splits it into a token list containing the empty token and throws, so
validate yields an exception, not a structured result. -/
theorem c2_consecutive_spaces_throw :
    validate (baseRec "a  b") = .exn ∧
    capitalize "a  b" = none := by decide

/-- C3 counterexample: with the techs key missing and every other field
valid, validate reports the invalid-type issue (zod message "Required") on
the techs path — the error list contains no TooFew issue, so the input was
not normalized to a length-0 techs array. -/
theorem c3_missing_techs_counterexample :
    validate noTechsRec = .err [⟨techsPath, .invalidType⟩] ∧
    FieldError.mk techsPath .tooFew ∉ errsOf (validate noTechsRec) := by decide

/-- C3 amended: a raw record whose techs key is missing (and whose name does
not make the transform throw) yields a structured error result containing an
invalid-type issue on the techs path; no normalization to an empty collection
takes place. -/
theorem c3_missing_techs_structured (r : RawRecord) (nm : List FieldError × String)
    (hn : parseName r.name = some nm) (ht : r.techs = none) :
    ∃ es, validate r = .err es ∧ FieldError.mk techsPath .invalidType ∈ es := by
  refine ⟨fieldIssues r nm, ?_, ?_⟩
  · unfold validate
    rw [hn, ht]
    simp [parseTechs]
  · simp [fieldIssues, ht, parseTechs]

/-- C3 witness: the amended statement at the concrete missing-techs record. -/
theorem c3_missing_techs_structured_witness :
    ∃ es, validate noTechsRec = .err es ∧ FieldError.mk techsPath .invalidType ∈ es :=
  c3_missing_techs_structured noTechsRec ([], "Ana") (by decide) (by decide)

lemma email_required_mem (s : String) :
    FieldError.mk emailPath .required ∈ (parseEmail s).1 ↔ s = "" := by
  rw [← string_length_lt_one_iff]
  simp only [parseEmail, List.mem_append]
  by_cases h1 : s.length < 1 <;> by_cases h2 : zodEmailCheck s = true <;>
    by_cases h3 : endsWithGmail (lowerStr s) = true <;> simp [h1, h2, h3]

lemma email_invalid_mem (s : String) :
    FieldError.mk emailPath .invalidFormat ∈ (parseEmail s).1 ↔ zodEmailCheck s = false := by
  simp only [parseEmail, List.mem_append]
  by_cases h1 : s.length < 1 <;> by_cases h2 : zodEmailCheck s = true <;>
    by_cases h3 : endsWithGmail (lowerStr s) = true <;> simp [h1, h2, h3]

lemma email_policy_mem (s : String) :
    FieldError.mk emailPath .policyViolation ∈ (parseEmail s).1 ↔
      endsWithGmail (lowerStr s) = false := by
  simp only [parseEmail, List.mem_append]
  by_cases h1 : s.length < 1 <;> by_cases h2 : zodEmailCheck s = true <;>
    by_cases h3 : endsWithGmail (lowerStr s) = true <;> simp [h1, h2, h3]

/-- C4: the avatar resolves to the first file handle of the list: Required is
raised exactly when no file is present, TooLarge exactly when the handle's
byte size strictly exceeds 10 MiB (so an exactly-10-MiB file passes, as the
second conjunct instantiates), and on overall success the single handle is
the avatar of the normalized record. -/
theorem c4_avatar_rules :
    (∀ fl : List JsFile,
      (FieldError.mk avatarPath .required ∈ (parseAvatar fl).1 ↔ fl.head? = none) ∧
      (FieldError.mk avatarPath .tooLarge ∈ (parseAvatar fl).1 ↔
        ∃ f, fl.head? = some f ∧ 10 * 1024 * 1024 < f.size) ∧
      ((parseAvatar fl).1 = [] ↔ ∃ f, fl.head? = some f ∧ f.size ≤ 10 * 1024 * 1024)) ∧
    (∀ f : JsFile, f.size = 10 * 1024 * 1024 → (parseAvatar [f]).1 = []) ∧
    (∀ (r : RawRecord) (nr : NormalizedRecord),
      validate r = .ok nr → r.avatar.head? = some nr.avatar) := by
  refine ⟨?_, ?_, ?_⟩
  · intro fl
    refine ⟨?_, ?_, ?_⟩ <;>
      (cases hh : fl.head? with
       | none => simp [parseAvatar, hh]
       | some f => by_cases hs : maxFileSize < f.size <;>
           simp [parseAvatar, hh, hs, maxFileSize] at * <;> omega)
  · intro f hf
    simp [parseAvatar, maxFileSize, hf]
  · intro r nr h
    unfold validate at h
    split at h
    · simp at h
    · split at h
      · simp at h
      · split at h
        · split at h
          · rename_i f heq
            cases h
            rw [← parseAvatar_val]
            simpa using heq
          · simp at h
        · simp at h

/-- C4 witness: the exactly-10-MiB file passes, and on the concrete valid
record the normalized avatar is the submitted list's single handle. -/
theorem c4_avatar_rules_witness :
    (parseAvatar [JsFile.mk (10 * 1024 * 1024)]).1 = [] ∧
    validRec.avatar.head? = some validNorm.avatar :=
  ⟨c4_avatar_rules.2.1 ⟨10 * 1024 * 1024⟩ rfl,
   c4_avatar_rules.2.2 validRec validNorm (by decide)⟩

/-- C5: the email field raises Required exactly on the empty string and
InvalidFormat exactly when the zod email regular expression rejects the
input; the field's value is the lower-cased input and PolicyViolation is
raised exactly when that lower-cased value does not end with "@gmail.com".
Hence two inputs equal up to letter case get the same domain-check outcome
and the same normalized value, and the mixed-case "User@GMAIL.com" parses
cleanly to "user@gmail.com". -/
theorem c5_email_rules :
    (∀ s : String,
      (FieldError.mk emailPath .required ∈ (parseEmail s).1 ↔ s = "") ∧
      (FieldError.mk emailPath .invalidFormat ∈ (parseEmail s).1 ↔ zodEmailCheck s = false) ∧
      (parseEmail s).2 = lowerStr s ∧
      (FieldError.mk emailPath .policyViolation ∈ (parseEmail s).1 ↔
        endsWithGmail (lowerStr s) = false)) ∧
    (∀ s t : String, lowerStr s = lowerStr t →
      (FieldError.mk emailPath .policyViolation ∈ (parseEmail s).1 ↔
        FieldError.mk emailPath .policyViolation ∈ (parseEmail t).1) ∧
      (parseEmail s).2 = (parseEmail t).2) ∧
    parseEmail "User@GMAIL.com" = ([], "user@gmail.com") := by
  refine ⟨fun s => ⟨email_required_mem s, email_invalid_mem s, rfl, email_policy_mem s⟩,
    fun s t h => ⟨?_, ?_⟩, by decide⟩
  · rw [email_policy_mem s, email_policy_mem t, h]
  · show lowerStr s = lowerStr t
    exact h

/-- C5 witness: the case-invariance conjunct at the spec's mixed-case
address and its lower-cased form. -/
theorem c5_email_rules_witness :
    (FieldError.mk emailPath .policyViolation ∈ (parseEmail "User@GMAIL.com").1 ↔
      FieldError.mk emailPath .policyViolation ∈ (parseEmail "user@gmail.com").1) ∧
    (parseEmail "User@GMAIL.com").2 = (parseEmail "user@gmail.com").2 :=
  c5_email_rules.2.1 "User@GMAIL.com" "user@gmail.com" (by decide)

/-- C6 counterexample: with both passwords failing their field-level length
rule (and unequal), the cross-field refinement still runs and its Mismatch
issue appears next to the two TooShort issues — refuting the claim that the
refinement runs only after the field-level rules for the two fields pass. -/
theorem c6_refine_runs_on_dirty_fields :
    FieldError.mk passwordPath .tooShort ∈ errsOf (validate shortPwRec) ∧
    FieldError.mk confirmPath .tooShort ∈ errsOf (validate shortPwRec) ∧
    FieldError.mk confirmPath .mismatch ∈ errsOf (validate shortPwRec) := by decide

/-- C6 amended: whenever the object parse is not aborted (the techs key
present with coercible knowledge values) and the name transform does not
throw, the refinement runs — regardless of field-level failures — and its
Mismatch issue, on the confirmPassword path and after all field-level
issues, appears exactly when the two passwords differ; the spec's concrete
scenario yields exactly the single Mismatch issue. -/
theorem c6_mismatch_rules :
    (∀ (r : RawRecord) (nm : List FieldError × String),
      parseName r.name = some nm → (parseTechs r.techs).2.1 = false →
      (FieldError.mk confirmPath .mismatch ∈ errsOf (validate r) ↔
        r.password ≠ r.confirmPassword)) ∧
    validate specScenarioRec = .err [⟨confirmPath, .mismatch⟩] := by
  constructor
  · intro r nm hn ha
    unfold validate
    rw [hn]
    by_cases he : (fieldIssues r nm ++ refineIssues r).isEmpty
    · have hni : fieldIssues r nm = [] ∧ refineIssues r = [] := by
        rw [List.isEmpty_iff] at he
        exact List.append_eq_nil.mp he
      have hpc : r.password = r.confirmPassword := by
        by_contra hne
        simp [refineIssues, hne] at hni
      cases hav : (parseAvatar r.avatar).2 <;>
        simp [errsOf, ha, he, hav, hpc, hni.1, hni.2]
    · have hmem : FieldError.mk confirmPath .mismatch ∈ fieldIssues r nm ++ refineIssues r ↔
          r.password ≠ r.confirmPassword := by
        rw [List.mem_append]
        constructor
        · rintro (h | h)
          · exact (mem_fieldIssues_kind hn h rfl).elim
          · intro hpc
            rw [refineIssues, if_pos hpc] at h
            simp at h
        · intro hne
          right
          simp [refineIssues, hne]
      simpa [errsOf, ha, he] using hmem
  · decide

/-- C6 witness: the amended rule at the short-unequal-passwords record. -/
theorem c6_mismatch_rules_witness :
    FieldError.mk confirmPath .mismatch ∈ errsOf (validate shortPwRec) ↔
      shortPwRec.password ≠ shortPwRec.confirmPassword :=
  c6_mismatch_rules.1 shortPwRec ([], "Ana") (by decide) (by decide)

/-- C7: any techs array with fewer than 2 entries raises TooFew on the techs
path regardless of the entries' own validity, and per-entry issues are
collected alongside the array-level one: the single-entry scenario with an
empty title yields exactly TooFew on the array plus Required on the first
entry's title, in that order. -/
theorem c7_toofew_rules :
    (∀ ts : List RawTech, ts.length < 2 →
      FieldError.mk techsPath .tooFew ∈ (parseTechs (some ts)).1) ∧
    (parseTechs (some [⟨"", .str "5"⟩])).1 =
      [⟨techsPath, .tooFew⟩, ⟨titlePath 0, .required⟩] := by
  constructor
  · intro ts h
    simp [parseTechs, h]
  · decide

/-- C7 witness: the universal TooFew rule at the concrete single-entry
scenario. -/
theorem c7_toofew_rules_witness :
    FieldError.mk techsPath .tooFew ∈ (parseTechs (some [⟨"", .str "5"⟩])).1 :=
  c7_toofew_rules.1 [⟨"", .str "5"⟩] (by decide)

/-- C8: once a raw knowledge value (number or string) coerces to a number,
OutOfRange is raised on the entry's knowledge path exactly when that number
lies outside [1,100]; concretely the raw string "150" raises OutOfRange
while the boundary values 1 and 100 (string or number form) pass. -/
theorem c8_knowledge_range :
    (∀ (i : Nat) (rk : RawKnowledge) (n : Int), coerceKnowledge rk = some n →
      (FieldError.mk (knowledgePath i) .outOfRange ∈ (knowledgeErrs i rk).1 ↔
        (n < 1 ∨ 100 < n))) ∧
    (knowledgeErrs 0 (.str "150")).1 = [⟨knowledgePath 0, .outOfRange⟩] ∧
    (knowledgeErrs 0 (.str "1")).1 = [] ∧
    (knowledgeErrs 0 (.str "100")).1 = [] ∧
    (knowledgeErrs 0 (.num 1)).1 = [] ∧
    (knowledgeErrs 0 (.num 100)).1 = [] := by
  refine ⟨?_, by decide, by decide, by decide, by decide, by decide⟩
  intro i rk n h
  unfold knowledgeErrs
  rw [h]
  by_cases h1 : n < 1 <;> by_cases h2 : 100 < n <;> simp [h1, h2]

/-- C8 witness: the range rule at the raw string "150". -/
theorem c8_knowledge_range_witness :
    FieldError.mk (knowledgePath 0) .outOfRange ∈ (knowledgeErrs 0 (.str "150")).1 ↔
      ((150 : Int) < 1 ∨ 100 < (150 : Int)) :=
  c8_knowledge_range.1 0 (.str "150") 150 (by decide)

lemma eraseIdx_concat_self {α : Type} (xs : List α) (x : α) :
    (xs ++ [x]).eraseIdx xs.length = xs := by
  induction xs with
  | nil => rfl
  | cons a as ih => simpa [List.eraseIdx] using ih

/-- C9: appending an entry and immediately removing the last index restores
the collection's entries exactly — same length, same values, and the
remaining entries keep their stable identifiers and order (only the fresh-id
counter has advanced, which is invisible modulo stable identifiers). -/
theorem c9_append_remove_roundtrip :
    ∀ (c : Coll) (title : String) (knowledge : Int),
      (removeAt (appendEntry c title knowledge)
        ((appendEntry c title knowledge).items.length - 1)).items = c.items := by
  intro c title knowledge
  simp only [appendEntry, removeAt, List.length_append, List.length_cons, List.length_nil]
  rw [if_pos (by omega)]
  simpa using eraseIdx_concat_self c.items ⟨c.nextId, title, knowledge⟩

/-- C10: `addNewTech` appends the entry {title: "", knowledge: 0} at the end
of the collection, and that default entry, validated unchanged at any index,
contributes exactly two issues — Required on its title and OutOfRange on its
knowledge — so the append default never satisfies validation. -/
theorem c10_fresh_entry_two_errors :
    ∀ (c : Coll) (i : Nat),
      ((addNewTech c).items.getLast?).map (fun it => (it.title, it.knowledge)) =
        some ("", 0) ∧
      (validateTechEntry i ⟨"", .num 0⟩).1 =
        [⟨titlePath i, .required⟩, ⟨knowledgePath i, .outOfRange⟩] := by
  intro c i
  constructor
  · simp [addNewTech, appendEntry]
  · rfl
